/- Verification development for the SkillSwap session lifecycle.

   Shallow embedding of models/Session.js (sessionSchema methods confirm,
   cancel, complete, start, the pre-save status-history hook and the
   actualDuration virtual), of routes/sessions.js (the confirm and complete
   route handlers), and of the AuditLog.log static from models/index.js.

   Timestamps are Nat milliseconds.  User ids are Nat.  Mongoose save is
   modelled by saveDoc: the pre-save hook appends a history entry whenever
   the status path is modified.  A schema default assigned at construction
   leaves the path in the default state, not the modify state, so the
   creation save fires no hook and a new document's statusHistory is empty;
   every transition method assigns a status different from all of its legal
   source states, so each of their saves appends exactly one hook entry. -/
import Mathlib

namespace SkillSwap

/-- Equality of Except values is decidable when both parts are. -/
instance {ε α : Type} [DecidableEq ε] [DecidableEq α] :
    DecidableEq (Except ε α) := fun a b =>
  match a, b with
  | .error e1, .error e2 => decidable_of_iff (e1 = e2) (by simp)
  | .error _, .ok _ => .isFalse (fun hh => Except.noConfusion hh)
  | .ok _, .error _ => .isFalse (fun hh => Except.noConfusion hh)
  | .ok a1, .ok a2 => decidable_of_iff (a1 = a2) (by simp)

/-- Status enumeration of sessionSchema.status. -/
inductive Status
  | pending
  | confirmed
  | inProgress
  | completed
  | cancelled
  | noShow
deriving DecidableEq, Repr

/-- Name of each status value as the string in the schema enum. -/
def statusName : Status → String
  | .pending => "pending"
  | .confirmed => "confirmed"
  | .inProgress => "in-progress"
  | .completed => "completed"
  | .cancelled => "cancelled"
  | .noShow => "no-show"

/-- One element of sessionSchema.statusHistory. -/
structure HistoryEntry where
  status : Status
  changedAt : Nat
  changedBy : Option Nat
  reason : Option String
deriving DecidableEq, Repr

/-- The cancellation subdocument of a session. -/
structure Cancellation where
  cancelledBy : Nat
  reason : Option String
  cancelledAt : Nat
deriving DecidableEq, Repr

/-- The pointsAwarded subdocument of a session. -/
structure Points where
  tutor : Nat
  student : Nat
deriving DecidableEq, Repr

/-- A session document: the fields of sessionSchema that the lifecycle
    methods and the session routes read or write. -/
structure Session where
  tutor : Nat
  student : Nat
  title : String
  scheduledDate : Nat
  duration : Nat
  status : Status
  statusHistory : List HistoryEntry
  cancellation : Option Cancellation
  actualStartTime : Option Nat
  actualEndTime : Option Nat
  pointsAwarded : Points
deriving DecidableEq, Repr

/-- Saving a session document whose status path is modified: the pre-save
    middleware pushes one entry recording the new status, with no changedBy
    and no reason. -/
def saveDoc (s : Session) (now : Nat) : Session :=
  { s with statusHistory := s.statusHistory ++ [⟨s.status, now, none, none⟩] }

/-- Creating and saving a session request: the route passes no status, so
    status takes the schema default pending; a defaulted path does not
    count as modified, the creation save pushes no history entry, and
    statusHistory starts empty. -/
def newSession (tutor student : Nat) (title : String)
    (scheduledDate duration _createdAt : Nat) : Session :=
  { tutor := tutor
    student := student
    title := title
    scheduledDate := scheduledDate
    duration := duration
    status := .pending
    statusHistory := []
    cancellation := none
    actualStartTime := none
    actualEndTime := none
    pointsAwarded := ⟨0, 0⟩ }

/-- Method sessionSchema.methods.confirm: guard on pending, set status,
    push a manual history entry with changedBy, then save (hook entry). -/
def Session.confirm (s : Session) (userId now : Nat) : Except String Session :=
  if s.status ≠ .pending then
    .error "Only pending sessions can be confirmed"
  else
    .ok (saveDoc
      { s with status := .confirmed
               statusHistory :=
                 s.statusHistory ++ [⟨.confirmed, now, some userId, none⟩] } now)

/-- Method sessionSchema.methods.cancel: guard on pending or confirmed, set
    status and the cancellation subdocument, push a manual history entry
    carrying changedBy and the reason, then save (hook entry). -/
def Session.cancel (s : Session) (userId : Nat) (reason : Option String)
    (now : Nat) : Except String Session :=
  if s.status = .pending ∨ s.status = .confirmed then
    .ok (saveDoc
      { s with status := .cancelled
               cancellation := some ⟨userId, reason, now⟩
               statusHistory :=
                 s.statusHistory ++ [⟨.cancelled, now, some userId, reason⟩] } now)
  else
    .error "This session cannot be cancelled"

/-- The document produced by a successful complete call before the save. -/
def completedSessionOf (s : Session) (tutorPoints studentPoints now : Nat) :
    Session :=
  saveDoc
    { s with status := .completed
             actualEndTime := some now
             pointsAwarded := ⟨tutorPoints, studentPoints⟩ } now

/-- Method sessionSchema.methods.complete: guard on in-progress or
    confirmed, set status, actualEndTime and pointsAwarded, then save. -/
def Session.complete (s : Session) (tutorPoints studentPoints now : Nat) :
    Except String Session :=
  if s.status ≠ .inProgress ∧ s.status ≠ .confirmed then
    .error "Only confirmed or in-progress sessions can be completed"
  else
    .ok (completedSessionOf s tutorPoints studentPoints now)

/-- Method sessionSchema.methods.start: guard on confirmed, set status and
    actualStartTime, then save. -/
def Session.start (s : Session) (now : Nat) : Except String Session :=
  if s.status ≠ .confirmed then
    .error "Only confirmed sessions can be started"
  else
    .ok (saveDoc { s with status := .inProgress, actualStartTime := some now } now)

/-- Virtual sessionSchema.virtual actualDuration: minutes between the two
    actual times when both are set, null otherwise.  Math.round for an end
    time at or after the start time is (diff + 30000) / 60000 on Nat. -/
def Session.actualDuration (s : Session) : Option Nat :=
  match s.actualStartTime, s.actualEndTime with
  | some a, some b => some ((b - a + 30000) / 60000)
  | _, _ => none

/-- A transition operation invocation with its arguments and timestamp. -/
inductive Op
  | confirm (userId now : Nat)
  | start (now : Nat)
  | complete (tutorPoints studentPoints now : Nat)
  | cancel (userId : Nat) (reason : Option String) (now : Nat)
deriving DecidableEq, Repr

/-- Dispatch an operation to the corresponding document method. -/
def applyOp (s : Session) : Op → Except String Session
  | .confirm u n => s.confirm u n
  | .start n => s.start n
  | .complete tp sp n => s.complete tp sp n
  | .cancel u r n => s.cancel u r n

/-- The document state after attempting an operation: a thrown guard error
    occurs before any field assignment, so the document is unchanged. -/
def step (s : Session) (op : Op) : Session :=
  match applyOp s op with
  | .ok s' => s'
  | .error _ => s

/-- Apply a list of attempted operations in order. -/
def run (s : Session) : List Op → Session
  | [] => s
  | op :: ops => run (step s op) ops

/-- The subsequence of operations that succeed along a run. -/
def transitions (s : Session) : List Op → List Op
  | [] => []
  | op :: ops =>
    match applyOp s op with
    | .ok s' => op :: transitions s' ops
    | .error _ => transitions s ops

/-- Operations whose method pushes a manual history entry in addition to
    the entry pushed by the pre-save hook. -/
def doublesHistory : Op → Bool
  | .confirm _ _ => true
  | .cancel _ _ _ => true
  | _ => false

/-- Legal source states of each operation, as guarded in the methods. -/
def opAllowedFrom : Op → List Status
  | .confirm _ _ => [.pending]
  | .start _ => [.confirmed]
  | .complete _ _ _ => [.confirmed, .inProgress]
  | .cancel _ _ _ => [.pending, .confirmed]

/-- The exact message of the Error thrown by each method on a bad state. -/
def opErrMsg : Op → String
  | .confirm _ _ => "Only pending sessions can be confirmed"
  | .start _ => "Only confirmed sessions can be started"
  | .complete _ _ _ => "Only confirmed or in-progress sessions can be completed"
  | .cancel _ _ _ => "This session cannot be cancelled"

/-- Target state of each operation. -/
def opTarget : Op → Status
  | .confirm _ _ => .confirmed
  | .start _ => .inProgress
  | .complete _ _ _ => .completed
  | .cancel _ _ _ => .cancelled

/-- Whether the second list occurs contiguously inside the first. -/
def listInfix [DecidableEq α] (l pat : List α) : Bool :=
  (List.range (l.length + 1)).any fun i => pat.isPrefixOf (l.drop i)

/-- Whether the string pat occurs inside the string s. -/
def strContains (s pat : String) : Bool :=
  listInfix s.toList pat.toList

/-- A user document: the fields of the User model that the session routes
    read or write when completing a session.  Achievements are stored by
    name; hours are exact rationals standing for the js number arithmetic
    duration / 60. -/
structure UserDoc where
  sessionsHosted : Nat
  sessionsCompleted : Nat
  totalHoursTaught : ℚ
  totalHoursLearned : ℚ
  points : Nat
  achievements : List String
deriving DecidableEq, Repr

/-- Modelled from the spec: the User model file that defines the
    addAchievement method is not among the repository sources (only its
    call sites in the route handlers are present).  Per the spec, the
    achievement evaluator is idempotent per achievement id per user:
    granting an achievement the user already holds is a no-op; otherwise
    the achievement is recorded and its points are added. -/
def addAchievement (u : UserDoc) (name : String) (pts : Nat) : UserDoc :=
  if name ∈ u.achievements then u
  else { u with achievements := u.achievements ++ [name]
                points := u.points + pts }

/-- The persistent state the session routes operate on: the session and
    the two participant user documents (findById on session.tutor and
    session.student). -/
structure World where
  session : Session
  tutorU : UserDoc
  studentU : UserDoc
deriving DecidableEq, Repr

/-- Observable side effects persisted or emitted by a route handler, in
    program order. -/
inductive Effect
  | persistStatus (st : Status)
  | updateUserStats (userId : Nat)
  | grantAchievement (userId : Nat) (name : String)
  | postMessage (text : String)
  | auditEvent (action : String)
deriving DecidableEq, Repr

/-- Whether an effect is a conversation notification message. -/
def Effect.isMessage : Effect → Bool
  | .postMessage _ => true
  | _ => false

/-- The response a route handler sends. -/
inductive Response
  | ok (msg : String)
  | forbidden (msg : String)
  | serverError (msg : String)
deriving DecidableEq, Repr

/-- Result of running a route handler: response, resulting persistent
    state, and the ordered trace of persisted side effects. -/
structure RouteOutcome where
  response : Response
  world : World
  trace : List Effect
deriving DecidableEq, Repr

/-- Injected failures at the await points of the complete route handler:
    the tutor save, the student save, the achievement grants, and the
    database write inside AuditLog.log. -/
structure Faults where
  tutorSaveFail : Bool
  studentSaveFail : Bool
  achievementFail : Bool
  auditDbFail : Bool
deriving DecidableEq, Repr

/-- No injected failures. -/
def noFaults : Faults := ⟨false, false, false, false⟩

/-- The fields of an audit event record that AuditLog.log receives. -/
structure AuditData where
  user : Nat
  action : String
  description : String
deriving DecidableEq, Repr

/-- Outcome of a js async call: a returned value or a thrown error. -/
inductive Outcome (α : Type)
  | returned (val : α)
  | thrown (msg : String)
deriving DecidableEq, Repr

/-- Whether the call returned normally. -/
def Outcome.isReturn : Outcome α → Bool
  | .returned _ => true
  | .thrown _ => false

namespace AuditLog

/-- The save of the audit document inside AuditLog.log; dbFail injects a
    database error. -/
def saveLog (d : AuditData) (dbFail : Bool) : Outcome AuditData :=
  if dbFail then .thrown "db error" else .returned d

/-- Static auditLogSchema.statics.log: constructs and saves the record in
    a try block; on any error it logs to the console and returns null. -/
def log (d : AuditData) (dbFail : Bool) : Outcome (Option AuditData) :=
  match saveLog d dbFail with
  | .returned l => .returned (some l)
  | .thrown _ => .returned none

end AuditLog

/-- Tutor user after the stats update of the complete route: sessionsHosted
    plus one, totalHoursTaught plus duration / 60, points plus 20. -/
def tutorAfterStats (w : World) : UserDoc :=
  { w.tutorU with
      sessionsHosted := w.tutorU.sessionsHosted + 1
      totalHoursTaught := w.tutorU.totalHoursTaught + (w.session.duration : ℚ) / 60
      points := w.tutorU.points + 20 }

/-- Student user after the stats update of the complete route:
    sessionsCompleted plus one, totalHoursLearned plus duration / 60,
    points plus 10. -/
def studentAfterStats (w : World) : UserDoc :=
  { w.studentU with
      sessionsCompleted := w.studentU.sessionsCompleted + 1
      totalHoursLearned := w.studentU.totalHoursLearned + (w.session.duration : ℚ) / 60
      points := w.studentU.points + 10 }

/-- Tutor user and emitted effects after the achievement check of the
    complete route: if sessionsHosted landed exactly on 1, grant the first
    hosted session achievement. -/
def tutorAfterAch (w : World) : UserDoc × List Effect :=
  if (tutorAfterStats w).sessionsHosted = 1 then
    (addAchievement (tutorAfterStats w) "First Session Hosted" 25,
     [.grantAchievement w.session.tutor "First Session Hosted"])
  else (tutorAfterStats w, [])

/-- Student user and emitted effects after the achievement check of the
    complete route: if sessionsCompleted landed exactly on 1, grant the
    first learning session achievement. -/
def studentAfterAch (w : World) : UserDoc × List Effect :=
  if (studentAfterStats w).sessionsCompleted = 1 then
    (addAchievement (studentAfterStats w) "First Lesson Learned" 15,
     [.grantAchievement w.session.student "First Lesson Learned"])
  else (studentAfterStats w, [])

/-- Route handler POST /sessions/:id/complete: session.complete(20, 10),
    then tutor stats save, student stats save, achievement checks, audit
    log, success response.  A thrown error at any await point jumps to the
    catch block, which sends a 500 response with the error message; there
    is no rollback of anything already persisted, and no conversation
    message is created by this handler. -/
def completeRoute (w : World) (userId now : Nat) (f : Faults) : RouteOutcome :=
  match w.session.complete 20 10 now with
  | .error e => ⟨.serverError e, w, []⟩
  | .ok s' =>
    let w1 : World := { w with session := s' }
    if f.tutorSaveFail then
      ⟨.serverError "Failed to complete session", w1, [.persistStatus .completed]⟩
    else
      let w2 : World := { w1 with tutorU := tutorAfterStats w }
      if f.studentSaveFail then
        ⟨.serverError "Failed to complete session", w2,
         [.persistStatus .completed, .updateUserStats w.session.tutor]⟩
      else
        let w3 : World := { w2 with studentU := studentAfterStats w }
        let base : List Effect :=
          [.persistStatus .completed, .updateUserStats w.session.tutor,
           .updateUserStats w.session.student]
        if f.achievementFail then
          ⟨.serverError "Failed to complete session", w3, base⟩
        else
          let w4 : World :=
            { w3 with tutorU := (tutorAfterAch w).1, studentU := (studentAfterAch w).1 }
          let auditTrace : List Effect :=
            match AuditLog.log ⟨userId, "SESSION_COMPLETE", w.session.title⟩
                    f.auditDbFail with
            | .returned (some _) => [.auditEvent "SESSION_COMPLETE"]
            | _ => []
          ⟨.ok "Session completed! Please leave a review.", w4,
           base ++ (tutorAfterAch w).2 ++ (studentAfterAch w).2 ++ auditTrace⟩

/-- Route handler POST /sessions/:id/confirm: reject any caller other than
    the tutor with a 403 before touching the document; otherwise
    session.confirm(userId), audit log, confirmation message, success. -/
def confirmRoute (w : World) (userId now : Nat) : RouteOutcome :=
  if userId ≠ w.session.tutor then
    ⟨.forbidden "Only the tutor can confirm sessions", w, []⟩
  else
    match w.session.confirm userId now with
    | .error e => ⟨.serverError e, w, []⟩
    | .ok s' =>
      ⟨.ok "Session confirmed successfully", { w with session := s' },
       [.persistStatus .confirmed, .auditEvent "SESSION_CONFIRM",
        .postMessage "Session Confirmed"]⟩

/-- Concrete fixture: a freshly requested session, tutor 1, student 2. -/
def sPending : Session := newSession 1 2 "Algebra 2" 100 60 0

/-- Concrete fixture: the same session after the tutor confirmed it. -/
def sConfirmed : Session := run sPending [Op.confirm 1 10]

/-- Concrete fixture: the same session confirmed and then completed. -/
def sDone : Session := run sPending [Op.confirm 1 10, Op.complete 20 10 20]

/-- Concrete fixture: a brand-new user document. -/
def u0 : UserDoc := ⟨0, 0, 0, 0, 0, []⟩

/-- Concrete fixture: world with the confirmed session and two fresh users. -/
def w0 : World := ⟨sConfirmed, u0, u0⟩

/-- State invariant of reachable session documents: a session that has not
    been started yet has no actualStartTime, and a session that is not
    cancelled has no cancellation subdocument. -/
def GoodState (s : Session) : Prop :=
  (s.status = .pending ∨ s.status = .confirmed → s.actualStartTime = none) ∧
  (s.status ≠ .cancelled → s.cancellation = none)

/-- Appending one element makes it the last element. -/
lemma getLast_append_single (l : List α) (a : α) :
    (l ++ [a]).getLast? = some a := by
  induction l with
  | nil => rfl
  | cons b l ih =>
    cases l with
    | nil => rfl
    | cons c l => exact ih

/-- A successful operation grows the history by two entries for confirm
    and cancel (manual push plus hook) and by one entry otherwise. -/
lemma applyOp_ok_len {s s' : Session} {op : Op} (h : applyOp s op = .ok s') :
    s'.statusHistory.length =
      s.statusHistory.length + (if doublesHistory op then 2 else 1) := by
  cases op <;>
    simp only [applyOp, Session.confirm, Session.cancel, Session.complete,
      Session.start, completedSessionOf] at h <;>
    split at h <;>
    (try exact Except.noConfusion h) <;>
    (injection h with h ; subst h ; simp [saveDoc, doublesHistory])

/-- A successful operation moves the document to the operation's target
    status. -/
lemma applyOp_ok_status {s s' : Session} {op : Op} (h : applyOp s op = .ok s') :
    s'.status = opTarget op := by
  cases op <;>
    simp only [applyOp, Session.confirm, Session.cancel, Session.complete,
      Session.start, completedSessionOf] at h <;>
    split at h <;>
    (try exact Except.noConfusion h) <;>
    (injection h with h ; subst h ; simp [saveDoc, opTarget])

/-- After a successful operation the last history entry is the hook entry,
    which records the new current status. -/
lemma applyOp_ok_last {s s' : Session} {op : Op} (h : applyOp s op = .ok s') :
    s'.statusHistory.getLast?.map HistoryEntry.status = some s'.status := by
  cases op <;>
    simp only [applyOp, Session.confirm, Session.cancel, Session.complete,
      Session.start, completedSessionOf] at h <;>
    split at h <;>
    (try exact Except.noConfusion h) <;>
    (injection h with h ; subst h ; simp [saveDoc, getLast_append_single])

/-- A step only ever appends to the status history. -/
lemma step_history_append (s : Session) (op : Op) :
    ∃ t, (step s op).statusHistory = s.statusHistory ++ t := by
  unfold step
  cases hop : applyOp s op with
  | error e => exact ⟨[], by simp⟩
  | ok s' =>
    cases op <;>
      simp only [applyOp, Session.confirm, Session.cancel, Session.complete,
        Session.start, completedSessionOf] at hop <;>
      split at hop <;>
      (try exact Except.noConfusion hop) <;>
      (injection hop with hop ; subst hop ;
        simp only [saveDoc, List.append_assoc] ; exact ⟨_, rfl⟩)

/-- History length accounting along a run: each successful transition
    contributes one entry, and successful confirm and cancel transitions
    contribute one further entry each. -/
lemma run_history_len (ops : List Op) (s : Session) :
    (run s ops).statusHistory.length =
      s.statusHistory.length + (transitions s ops).length +
        (transitions s ops).countP doublesHistory := by
  induction ops generalizing s with
  | nil => simp [run, transitions]
  | cons op ops ih =>
    simp only [run, transitions, step]
    cases hop : applyOp s op with
    | error e => simpa using ih s
    | ok s' =>
      have hlen := applyOp_ok_len hop
      simp only [List.length_cons, List.countP_cons]
      rw [ih s', hlen]
      by_cases hd : doublesHistory op <;> simp [hd] <;> omega

/-- The last-entry agreement invariant (vacuous while the history is
    still empty) is preserved by every step. -/
lemma step_last_or {s : Session} (op : Op)
    (h : s.statusHistory = [] ∨
      s.statusHistory.getLast?.map HistoryEntry.status = some s.status) :
    (step s op).statusHistory = [] ∨
      (step s op).statusHistory.getLast?.map HistoryEntry.status =
        some (step s op).status := by
  unfold step
  cases hop : applyOp s op with
  | error e => exact h
  | ok s' => exact Or.inr (applyOp_ok_last hop)

/-- The last-entry agreement invariant holds along every run. -/
lemma run_last_or (ops : List Op) (s : Session)
    (h : s.statusHistory = [] ∨
      s.statusHistory.getLast?.map HistoryEntry.status = some s.status) :
    (run s ops).statusHistory = [] ∨
      (run s ops).statusHistory.getLast?.map HistoryEntry.status =
        some (run s ops).status := by
  induction ops generalizing s with
  | nil => exact h
  | cons op ops ih => exact ih _ (step_last_or op h)

/-- A freshly created session request satisfies the state invariant. -/
lemma goodState_new (tutor student : Nat) (title : String)
    (sd dur now : Nat) : GoodState (newSession tutor student title sd dur now) := by
  constructor <;> intro h <;> rfl

/-- Every step preserves the state invariant. -/
lemma goodState_step {s : Session} (op : Op) (h : GoodState s) :
    GoodState (step s op) := by
  obtain ⟨h1, h2⟩ := h
  unfold step
  cases hop : applyOp s op with
  | error e => exact ⟨h1, h2⟩
  | ok s' =>
    cases op with
    | confirm u n =>
      simp only [applyOp, Session.confirm] at hop
      split at hop
      · exact Except.noConfusion hop
      · injection hop with hop
        subst hop
        rename_i hg
        have hs : s.status = .pending := not_not.mp hg
        refine ⟨fun _ => ?_, fun _ => ?_⟩
        · simpa [saveDoc] using h1 (Or.inl hs)
        · simpa [saveDoc] using h2 (by simp [hs])
    | start n =>
      simp only [applyOp, Session.start] at hop
      split at hop
      · exact Except.noConfusion hop
      · injection hop with hop
        subst hop
        rename_i hg
        have hs : s.status = .confirmed := not_not.mp hg
        refine ⟨fun hc => ?_, fun _ => ?_⟩
        · simp [saveDoc] at hc
        · simpa [saveDoc] using h2 (by simp [hs])
    | complete tp sp n =>
      simp only [applyOp, Session.complete, completedSessionOf] at hop
      split at hop
      · exact Except.noConfusion hop
      · injection hop with hop
        subst hop
        rename_i hg
        have hs : s.status = .inProgress ∨ s.status = .confirmed := by
          rcases not_and_or.mp hg with h | h
          · exact Or.inl (not_not.mp h)
          · exact Or.inr (not_not.mp h)
        have hns : s.status ≠ .cancelled := by
          rcases hs with h | h <;> simp [h]
        refine ⟨fun hc => ?_, fun _ => ?_⟩
        · simp [saveDoc] at hc
        · simpa [saveDoc] using h2 hns
    | cancel u r n =>
      simp only [applyOp, Session.cancel] at hop
      split at hop
      · injection hop with hop
        subst hop
        refine ⟨fun hc => ?_, fun hc => ?_⟩ <;> simp [saveDoc] at hc
      · exact Except.noConfusion hop

/-- The state invariant holds along every run from a good state. -/
lemma goodState_run (ops : List Op) {s : Session} (h : GoodState s) :
    GoodState (run s ops) := by
  induction ops generalizing s with
  | nil => exact h
  | cons op ops ih => exact ih (goodState_step op h)

/-- On a confirmed or in-progress document, complete succeeds and yields
    the completed document. -/
lemma complete_ok_of {s : Session} {tp sp now : Nat}
    (h : s.status = .confirmed ∨ s.status = .inProgress) :
    s.complete tp sp now = .ok (completedSessionOf s tp sp now) := by
  rcases h with h | h <;> simp [Session.complete, h]

/-- On a completed document, a further complete call throws. -/
lemma complete_err_of_completed {s : Session} {tp sp now : Nat}
    (h : s.status = .completed) :
    s.complete tp sp now =
      .error "Only confirmed or in-progress sessions can be completed" := by
  simp [Session.complete, h]

/-- The completed document is in status completed. -/
lemma completedSessionOf_status (s : Session) (tp sp now : Nat) :
    (completedSessionOf s tp sp now).status = .completed := rfl

/-- The completed document carries the awarded points. -/
lemma completedSessionOf_points (s : Session) (tp sp now : Nat) :
    (completedSessionOf s tp sp now).pointsAwarded = ⟨tp, sp⟩ := rfl

/-- Granting an achievement does not change the session counters or the
    accrued hours. -/
lemma addAchievement_counters (u : UserDoc) (n : String) (p : Nat) :
    (addAchievement u n p).sessionsHosted = u.sessionsHosted ∧
    (addAchievement u n p).sessionsCompleted = u.sessionsCompleted ∧
    (addAchievement u n p).totalHoursTaught = u.totalHoursTaught ∧
    (addAchievement u n p).totalHoursLearned = u.totalHoursLearned := by
  unfold addAchievement
  split <;> exact ⟨rfl, rfl, rfl, rfl⟩

/-- Granting an achievement the user already holds is a no-op. -/
lemma addAchievement_of_mem {u : UserDoc} {n : String} (p : Nat)
    (h : n ∈ u.achievements) : addAchievement u n p = u := by
  simp [addAchievement, h]

/-- Granting a new achievement appends it to the list. -/
lemma addAchievement_of_not_mem {u : UserDoc} {n : String} (p : Nat)
    (h : n ∉ u.achievements) :
    (addAchievement u n p).achievements = u.achievements ++ [n] := by
  simp [addAchievement, h]

/-- Counter and hour fields of the tutor after the achievement phase. -/
lemma tutorAfterAch_counts (w : World) :
    (tutorAfterAch w).1.sessionsHosted = w.tutorU.sessionsHosted + 1 ∧
    (tutorAfterAch w).1.totalHoursTaught =
      w.tutorU.totalHoursTaught + (w.session.duration : ℚ) / 60 := by
  unfold tutorAfterAch
  split
  · exact ⟨(addAchievement_counters _ _ _).1, (addAchievement_counters _ _ _).2.2.1⟩
  · exact ⟨rfl, rfl⟩

/-- Counter and hour fields of the student after the achievement phase. -/
lemma studentAfterAch_counts (w : World) :
    (studentAfterAch w).1.sessionsCompleted = w.studentU.sessionsCompleted + 1 ∧
    (studentAfterAch w).1.totalHoursLearned =
      w.studentU.totalHoursLearned + (w.session.duration : ℚ) / 60 := by
  unfold studentAfterAch
  split
  · exact ⟨(addAchievement_counters _ _ _).2.1, (addAchievement_counters _ _ _).2.2.2⟩
  · exact ⟨rfl, rfl⟩

/-- Full characterisation of a fault-free successful complete request. -/
lemma completeRoute_noFaults_eq (w : World) (uid now : Nat)
    (h : w.session.status = .confirmed ∨ w.session.status = .inProgress) :
    completeRoute w uid now noFaults =
      ⟨.ok "Session completed! Please leave a review.",
       ⟨completedSessionOf w.session 20 10 now,
        (tutorAfterAch w).1, (studentAfterAch w).1⟩,
       [.persistStatus .completed, .updateUserStats w.session.tutor,
        .updateUserStats w.session.student]
         ++ (tutorAfterAch w).2 ++ (studentAfterAch w).2
         ++ [.auditEvent "SESSION_COMPLETE"]⟩ := by
  unfold completeRoute
  rw [complete_ok_of h]
  simp [noFaults, AuditLog.log, AuditLog.saveLog]

/-- Whatever faults are injected after the authoritative write, the
    session stored in the resulting world is the completed document. -/
lemma completeRoute_session (w : World) (uid now : Nat) (f : Faults)
    (h : w.session.status = .confirmed ∨ w.session.status = .inProgress) :
    (completeRoute w uid now f).world.session =
      completedSessionOf w.session 20 10 now := by
  unfold completeRoute
  rw [complete_ok_of h]
  obtain ⟨ft, fs, fa, fd⟩ := f
  cases ft <;> cases fs <;> cases fa <;> cases fd <;>
    simp [AuditLog.log, AuditLog.saveLog]

/-- Whatever faults are injected, the first persisted side effect of a
    successful complete request is the authoritative status write. -/
lemma completeRoute_trace_head (w : World) (uid now : Nat) (f : Faults)
    (h : w.session.status = .confirmed ∨ w.session.status = .inProgress) :
    (completeRoute w uid now f).trace.head? =
      some (.persistStatus .completed) := by
  unfold completeRoute
  rw [complete_ok_of h]
  obtain ⟨ft, fs, fa, fd⟩ := f
  cases ft <;> cases fs <;> cases fa <;> cases fd <;>
    simp [AuditLog.log, AuditLog.saveLog]

/-- The complete route never emits a conversation message. -/
lemma completeRoute_no_message (w : World) (uid now : Nat) (f : Faults) :
    (completeRoute w uid now f).trace.filter Effect.isMessage = [] := by
  unfold completeRoute
  cases hc : w.session.complete 20 10 now with
  | error e => simp
  | ok s' =>
    obtain ⟨ft, fs, fa, fd⟩ := f
    cases ft <;> cases fs <;> cases fa <;> cases fd <;>
      simp [AuditLog.log, AuditLog.saveLog, Effect.isMessage,
        tutorAfterAch, studentAfterAch] <;>
      (try split) <;> (try split) <;> simp [Effect.isMessage]

/-- Claim C1, counterexample to the claim as stated: invoking cancel on a
    completed session does throw, but the error message of the method is a
    fixed string that does not identify the current state of the session
    (the word completed occurs nowhere in it), so the error does not
    identify current state, operation and allowed sources as claimed. -/
theorem invalidTransition_message_omits_current_state :
    sDone.status = .completed ∧
    applyOp sDone (Op.cancel 2 (some "late") 30) =
      .error "This session cannot be cancelled" ∧
    strContains "This session cannot be cancelled" (statusName sDone.status) =
      false := by decide

/-- Claim C1 (amended): every transition operation succeeds exactly from
    its legal source states (confirm from pending; start from confirmed;
    complete from confirmed or in-progress; cancel from pending or
    confirmed) and moves the session to the operation's target state; from
    any other state it fails with the fixed error message of that method,
    a message that names the operation and, except for cancel, its allowed
    source states, but never the current state, and the thrown guard leaves
    the session document entirely unchanged. -/
theorem transition_edges_enforced (s : Session) (op : Op) :
    ((∃ s', applyOp s op = .ok s') ↔ s.status ∈ opAllowedFrom op) ∧
    (s.status ∉ opAllowedFrom op →
      applyOp s op = .error (opErrMsg op) ∧ step s op = s) ∧
    (∀ s', applyOp s op = .ok s' → s'.status = opTarget op) := by
  refine ⟨?_, ?_, fun s' h => applyOp_ok_status h⟩
  · cases op <;> cases hst : s.status <;>
      simp [applyOp, Session.confirm, Session.cancel, Session.complete,
        Session.start, opAllowedFrom, hst]
  · intro hmem
    cases op <;> cases hst : s.status <;>
      simp_all [applyOp, step, Session.confirm, Session.cancel,
        Session.complete, Session.start, opAllowedFrom, opErrMsg]

/-- Witness for the amended claim C1 at a concrete input: confirming an
    already completed session fails with the fixed confirm message and
    leaves the document unchanged. -/
theorem transition_edges_enforced_witness :
    applyOp sDone (Op.confirm 1 40) = .error (opErrMsg (Op.confirm 1 40)) ∧
    step sDone (Op.confirm 1 40) = sDone :=
  (transition_edges_enforced sDone (Op.confirm 1 40)).2.1 (by decide)

/-- Claim C2, counterexample to the claim as stated: a freshly created
    session has an empty status history, not the claimed one creation
    entry, because the schema-defaulted status does not count as modified
    and the pre-save hook pushes nothing on the creation save; and after
    two successful transitions (confirm then cancel) the history holds
    four entries, not the claimed three, because each of those methods
    pushes a manual entry and the hook pushes a second one. -/
theorem statusHistory_counts_diverge :
    (newSession 1 2 "Algebra 2" 100 60 0).statusHistory.length = 0 ∧
    (transitions (newSession 1 2 "Algebra 2" 100 60 0) ([] : List Op)).length =
      0 ∧
    (run sPending [Op.confirm 1 10, Op.cancel 1 (some "busy") 15]).statusHistory.length
      = 4 ∧
    (transitions sPending [Op.confirm 1 10, Op.cancel 1 (some "busy") 15]).length
      = 2 := by decide

/-- Claim C2 (amended): statusHistory is append-only; creation records no
    entry (a schema-defaulted status is not a modified path, so the
    pre-save hook does not fire on the creation save), and after any
    sequence of attempted operations the history length equals the number
    of successful transitions plus one extra entry for each successful
    confirm or cancel (whose methods push a manual entry in addition to
    the hook entry); whenever the history is nonempty, the status recorded
    in its last entry equals the session's current status. -/
theorem statusHistory_accounting (tutor student : Nat) (title : String)
    (sd dur t0 : Nat) (ops : List Op) :
    ((run (newSession tutor student title sd dur t0) ops).statusHistory.length =
      (transitions (newSession tutor student title sd dur t0) ops).length +
        (transitions (newSession tutor student title sd dur t0) ops).countP
          doublesHistory) ∧
    ((run (newSession tutor student title sd dur t0) ops).statusHistory = [] ∨
      (run (newSession tutor student title sd dur t0) ops).statusHistory.getLast?.map
          HistoryEntry.status =
        some (run (newSession tutor student title sd dur t0) ops).status) ∧
    (∀ (s : Session) (op : Op),
      ∃ t, (step s op).statusHistory = s.statusHistory ++ t) := by
  refine ⟨?_, ?_, step_history_append⟩
  · rw [run_history_len]
    simp [newSession]
  · exact run_last_or ops _ (Or.inl rfl)

/-- Claim C3: once a session is completed, any further complete request
    fails (the guard observes the already completed state), the world is
    left entirely unchanged and no points, counters or achievements are
    applied a second time (the trace of persisted side effects is empty);
    in particular this holds for the state produced by a first successful
    complete request. -/
theorem second_complete_rejected (w : World) (uid now uid2 now2 : Nat)
    (f : Faults)
    (h : w.session.status = .confirmed ∨ w.session.status = .inProgress) :
    (∀ w' : World, w'.session.status = .completed →
      completeRoute w' uid2 now2 f =
        ⟨.serverError "Only confirmed or in-progress sessions can be completed",
         w', []⟩) ∧
    completeRoute (completeRoute w uid now noFaults).world uid2 now2 f =
      ⟨.serverError "Only confirmed or in-progress sessions can be completed",
       (completeRoute w uid now noFaults).world, []⟩ := by
  have herr : ∀ w' : World, w'.session.status = .completed →
      completeRoute w' uid2 now2 f =
        ⟨.serverError "Only confirmed or in-progress sessions can be completed",
         w', []⟩ := by
    intro w' hw'
    unfold completeRoute
    rw [complete_err_of_completed hw']
  refine ⟨herr, herr _ ?_⟩
  rw [completeRoute_session w uid now noFaults h]
  rfl

/-- Witness for claim C3 at a concrete input: completing the already
    completed world a second time is rejected without side effects. -/
theorem second_complete_rejected_witness :
    completeRoute (completeRoute w0 1 50 noFaults).world 2 60 noFaults =
      ⟨.serverError "Only confirmed or in-progress sessions can be completed",
       (completeRoute w0 1 50 noFaults).world, []⟩ :=
  (second_complete_rejected w0 1 50 2 60 noFaults (by decide)).2

/-- Claim C4: a confirm request by any user other than the tutor, in
    particular the student, is rejected with the 403 response before the
    document is touched: the route returns the forbidden message and the
    whole world (session, status history and both users) is unchanged, no
    side effect is persisted. -/
theorem confirm_requires_tutor (w : World) (uid now : Nat)
    (h : uid ≠ w.session.tutor) :
    confirmRoute w uid now =
      ⟨.forbidden "Only the tutor can confirm sessions", w, []⟩ := by
  unfold confirmRoute
  rw [if_pos h]

/-- Witness for claim C4 at a concrete input: the student (user 2) cannot
    confirm the session of tutor 1. -/
theorem confirm_requires_tutor_witness :
    confirmRoute w0 2 99 =
      ⟨.forbidden "Only the tutor can confirm sessions", w0, []⟩ :=
  confirm_requires_tutor w0 2 99 (by decide)

/-- Claim C5: completing a confirmed or in-progress session sets the
    status to completed, sets pointsAwarded to the route's tutor 20 and
    student 10 (the method itself records whatever points the caller
    passes, so they are caller-overridable), increments the tutor's
    sessionsHosted by one and taught hours by duration / 60, and
    increments the student's sessionsCompleted by one and learned hours by
    duration / 60. -/
theorem complete_awards_points_and_counters (w : World) (uid now : Nat)
    (h : w.session.status = .confirmed ∨ w.session.status = .inProgress) :
    (completeRoute w uid now noFaults).world.session.status = .completed ∧
    (completeRoute w uid now noFaults).world.session.pointsAwarded = ⟨20, 10⟩ ∧
    (completeRoute w uid now noFaults).world.tutorU.sessionsHosted =
      w.tutorU.sessionsHosted + 1 ∧
    (completeRoute w uid now noFaults).world.tutorU.totalHoursTaught =
      w.tutorU.totalHoursTaught + (w.session.duration : ℚ) / 60 ∧
    (completeRoute w uid now noFaults).world.studentU.sessionsCompleted =
      w.studentU.sessionsCompleted + 1 ∧
    (completeRoute w uid now noFaults).world.studentU.totalHoursLearned =
      w.studentU.totalHoursLearned + (w.session.duration : ℚ) / 60 ∧
    (∀ (s : Session) (tp sp n : Nat),
      s.status = .confirmed ∨ s.status = .inProgress →
      ∃ s', s.complete tp sp n = .ok s' ∧ s'.pointsAwarded = ⟨tp, sp⟩) := by
  rw [completeRoute_noFaults_eq w uid now h]
  exact ⟨rfl, rfl, (tutorAfterAch_counts w).1, (tutorAfterAch_counts w).2,
    (studentAfterAch_counts w).1, (studentAfterAch_counts w).2,
    fun s tp sp n hs =>
      ⟨_, complete_ok_of hs, completedSessionOf_points s tp sp n⟩⟩

/-- Witness for claim C5 at a concrete input: completing the confirmed
    fixture session awards the default points and bumps the counters. -/
theorem complete_awards_points_and_counters_witness :
    (completeRoute w0 1 50 noFaults).world.session.pointsAwarded = ⟨20, 10⟩ ∧
    (completeRoute w0 1 50 noFaults).world.tutorU.sessionsHosted =
      w0.tutorU.sessionsHosted + 1 ∧
    (completeRoute w0 1 50 noFaults).world.studentU.sessionsCompleted =
      w0.studentU.sessionsCompleted + 1 :=
  ⟨(complete_awards_points_and_counters w0 1 50 (by decide)).2.1,
   (complete_awards_points_and_counters w0 1 50 (by decide)).2.2.1,
   (complete_awards_points_and_counters w0 1 50 (by decide)).2.2.2.2.1⟩

/-- Claim C6, counterexample to the claim as stated: a fault-free
    successful complete request emits no conversation notification message
    at all (the handler contains no message creation), so the claimed step
    4 of the side-effect order does not occur. -/
theorem complete_emits_no_notification :
    (completeRoute w0 1 50 noFaults).response =
      .ok "Session completed! Please leave a review." ∧
    (completeRoute w0 1 50 noFaults).trace.filter Effect.isMessage = [] := by
  decide

/-- Claim C6 (amended): a successful complete request performs its side
    effects in the order authoritative status write, tutor counters,
    student counters, achievement grants, audit event; it emits no
    conversation notification message; and whatever failures are injected
    into the best-effort steps, the authoritative status write of step one
    is first in the trace and is never rolled back. -/
theorem complete_side_effect_order (w : World) (uid now : Nat) (f : Faults)
    (h : w.session.status = .confirmed ∨ w.session.status = .inProgress) :
    (completeRoute w uid now f).world.session.status = .completed ∧
    (completeRoute w uid now f).trace.head? =
      some (.persistStatus .completed) ∧
    (completeRoute w uid now f).trace.filter Effect.isMessage = [] ∧
    (completeRoute w uid now noFaults).trace =
      [.persistStatus .completed, .updateUserStats w.session.tutor,
       .updateUserStats w.session.student]
        ++ (tutorAfterAch w).2 ++ (studentAfterAch w).2
        ++ [.auditEvent "SESSION_COMPLETE"] := by
  refine ⟨?_, completeRoute_trace_head w uid now f h,
    completeRoute_no_message w uid now f, ?_⟩
  · rw [completeRoute_session w uid now f h]
    rfl
  · rw [completeRoute_noFaults_eq w uid now h]

/-- Witness for the amended claim C6 at a concrete input: even when the
    tutor stats save fails, the status write stands and is the first
    persisted effect. -/
theorem complete_side_effect_order_witness :
    (completeRoute w0 1 50 ⟨true, false, false, false⟩).world.session.status =
      .completed ∧
    (completeRoute w0 1 50 ⟨true, false, false, false⟩).trace.head? =
      some (.persistStatus .completed) :=
  ⟨(complete_side_effect_order w0 1 50 ⟨true, false, false, false⟩ (by decide)).1,
   (complete_side_effect_order w0 1 50 ⟨true, false, false, false⟩
      (by decide)).2.1⟩

/-- Claim C7: for a tutor with zero prior hosted sessions and without the
    first-hosted-session achievement, completing their first hosted session
    grants the achievement exactly once; completing any later hosted
    session for the same tutor does not grant it again; and granting an
    achievement a user already holds is a no-op. -/
theorem first_tutor_achievement_once (w : World) (uid now : Nat)
    (h : w.session.status = .confirmed ∨ w.session.status = .inProgress)
    (h0 : w.tutorU.sessionsHosted = 0)
    (h1 : "First Session Hosted" ∉ w.tutorU.achievements) :
    (completeRoute w uid now noFaults).world.tutorU.achievements.count
      "First Session Hosted" = 1 ∧
    (∀ (s2 : Session) (stu2 : UserDoc) (uid2 now2 : Nat),
      s2.status = .confirmed ∨ s2.status = .inProgress →
      (completeRoute ⟨s2, (completeRoute w uid now noFaults).world.tutorU, stu2⟩
          uid2 now2 noFaults).world.tutorU.achievements.count
        "First Session Hosted" = 1) ∧
    (∀ (u : UserDoc) (a : String) (p : Nat),
      a ∈ u.achievements → addAchievement u a p = u) := by
  have hta : (tutorAfterStats w).sessionsHosted = 1 := by
    show w.tutorU.sessionsHosted + 1 = 1
    rw [h0]
  have hach : (tutorAfterAch w).1.achievements =
      w.tutorU.achievements ++ ["First Session Hosted"] := by
    unfold tutorAfterAch
    rw [if_pos hta]
    exact addAchievement_of_not_mem 25 h1
  have hcount1 : (tutorAfterAch w).1.achievements.count "First Session Hosted" =
      1 := by
    rw [hach]
    simp [List.count_append, List.count_eq_zero.mpr h1]
  have hfirst : (completeRoute w uid now noFaults).world.tutorU.achievements.count
      "First Session Hosted" = 1 := by
    rw [completeRoute_noFaults_eq w uid now h]
    exact hcount1
  refine ⟨hfirst, ?_, fun u a p hm => addAchievement_of_mem p hm⟩
  intro s2 stu2 uid2 now2 h2
  have hsh : (completeRoute w uid now noFaults).world.tutorU.sessionsHosted =
      1 := by
    rw [completeRoute_noFaults_eq w uid now h]
    rw [show (World.mk (completedSessionOf w.session 20 10 now)
        (tutorAfterAch w).1 (studentAfterAch w).1).tutorU =
        (tutorAfterAch w).1 from rfl]
    rw [(tutorAfterAch_counts w).1, h0]
  rw [completeRoute_noFaults_eq
    ⟨s2, (completeRoute w uid now noFaults).world.tutorU, stu2⟩ uid2 now2 h2]
  show (tutorAfterAch
      ⟨s2, (completeRoute w uid now noFaults).world.tutorU, stu2⟩).1.achievements.count
    "First Session Hosted" = 1
  unfold tutorAfterAch
  rw [if_neg (by
    show ¬((completeRoute w uid now noFaults).world.tutorU.sessionsHosted + 1 = 1)
    rw [hsh]
    decide)]
  show (completeRoute w uid now noFaults).world.tutorU.achievements.count
    "First Session Hosted" = 1
  exact hfirst

/-- Witness for claim C7 at a concrete input: the fixture tutor earns the
    first-hosted-session achievement once, and a second completed session
    does not add a second copy. -/
theorem first_tutor_achievement_once_witness :
    (completeRoute w0 1 50 noFaults).world.tutorU.achievements.count
      "First Session Hosted" = 1 ∧
    (completeRoute ⟨sConfirmed, (completeRoute w0 1 50 noFaults).world.tutorU, u0⟩
        2 70 noFaults).world.tutorU.achievements.count "First Session Hosted" =
      1 :=
  ⟨(first_tutor_achievement_once w0 1 50 (by decide) (by decide) (by decide)).1,
   (first_tutor_achievement_once w0 1 50 (by decide) (by decide)
      (by decide)).2.1 sConfirmed u0 2 70 (by decide)⟩

/-- Claim C8: cancel on a pending or confirmed session succeeds, sets the
    status to cancelled, records a history entry carrying the acting user
    and the supplied reason (followed by the hook entry), and populates
    the cancellation subdocument with the acting user, the reason and the
    cancellation time; moreover on every session reachable from creation
    the cancellation subdocument is populated only in status cancelled. -/
theorem cancel_records_cancellation :
    (∀ (s : Session) (uid : Nat) (r : Option String) (now : Nat),
      s.status = .pending ∨ s.status = .confirmed →
      ∃ s', s.cancel uid r now = .ok s' ∧
        s'.status = .cancelled ∧
        s'.cancellation = some ⟨uid, r, now⟩ ∧
        s'.statusHistory = s.statusHistory ++
          [⟨.cancelled, now, some uid, r⟩, ⟨.cancelled, now, none, none⟩]) ∧
    (∀ (tutor student : Nat) (title : String) (sd dur t0 : Nat)
        (ops : List Op),
      (run (newSession tutor student title sd dur t0) ops).cancellation ≠ none →
      (run (newSession tutor student title sd dur t0) ops).status =
        .cancelled) := by
  constructor
  · intro s uid r now h
    have hceq : s.cancel uid r now =
        .ok (saveDoc
          { s with status := .cancelled
                   cancellation := some ⟨uid, r, now⟩
                   statusHistory :=
                     s.statusHistory ++ [⟨.cancelled, now, some uid, r⟩] } now) := by
      unfold Session.cancel
      rw [if_pos h]
    exact ⟨_, hceq, rfl, rfl, by simp [saveDoc]⟩
  · intro tutor student title sd dur t0 ops hne
    by_contra hstat
    exact hne ((goodState_run ops
      (goodState_new tutor student title sd dur t0)).2 hstat)

/-- Witness for claim C8 at concrete inputs: the student cancels the
    pending fixture session with a reason, and a run that cancels records
    status cancelled. -/
theorem cancel_records_cancellation_witness :
    (∃ s', sPending.cancel 2 (some "schedule conflict") 12 = .ok s' ∧
      s'.status = .cancelled ∧
      s'.cancellation = some ⟨2, some "schedule conflict", 12⟩ ∧
      s'.statusHistory = sPending.statusHistory ++
        [⟨.cancelled, 12, some 2, some "schedule conflict"⟩,
         ⟨.cancelled, 12, none, none⟩]) ∧
    (run (newSession 1 2 "Algebra 2" 100 60 0) [Op.cancel 2 none 9]).status =
      .cancelled :=
  ⟨cancel_records_cancellation.1 sPending 2 (some "schedule conflict") 12
      (by decide),
   cancel_records_cancellation.2 1 2 "Algebra 2" 100 60 0 [Op.cancel 2 none 9]
      (by decide)⟩

/-- Claim C9: AuditLog.log never propagates an error to its caller: for
    every event record it returns normally, yielding the saved record on
    success and null when the underlying database write fails; and in the
    complete route an audit database failure leaves the response of the
    triggering transition identical to the fault-free response, so the
    operation is never blocked or rolled back by an audit failure. -/
theorem auditLog_never_blocks :
    (∀ (d : AuditData) (b : Bool),
      AuditLog.log d b = .returned (if b then none else some d) ∧
      (AuditLog.log d b).isReturn = true) ∧
    (∀ (w : World) (uid now : Nat),
      (completeRoute w uid now ⟨false, false, false, true⟩).response =
        (completeRoute w uid now noFaults).response) := by
  constructor
  · intro d b
    cases b <;> simp [AuditLog.log, AuditLog.saveLog, Outcome.isReturn]
  · intro w uid now
    unfold completeRoute
    cases hc : w.session.complete 20 10 now with
    | error e => rfl
    | ok s' => simp [AuditLog.log, AuditLog.saveLog, noFaults]

/-- Claim C10: completing a session directly from confirmed (no start
    operation ever ran on the session, which is reachable from creation)
    leaves actualStartTime unset, sets actualEndTime to the completion
    time, and therefore the actualDuration virtual of the completed
    session is null. -/
theorem complete_skipping_start_yields_no_duration
    (tutor student : Nat) (title : String) (sd dur t0 : Nat) (ops : List Op)
    (tp sp now : Nat) (s' : Session)
    (h : (run (newSession tutor student title sd dur t0) ops).status =
      .confirmed)
    (hc : (run (newSession tutor student title sd dur t0) ops).complete tp sp
        now = .ok s') :
    s'.actualStartTime = none ∧ s'.actualEndTime = some now ∧
    s'.actualDuration = none := by
  have hg := goodState_run ops (goodState_new tutor student title sd dur t0)
  have hstart : (run (newSession tutor student title sd dur t0) ops).actualStartTime
      = none := hg.1 (Or.inr h)
  rw [complete_ok_of (Or.inl h)] at hc
  injection hc with hc
  subst hc
  refine ⟨?_, rfl, ?_⟩
  · show (run (newSession tutor student title sd dur t0) ops).actualStartTime =
      none
    exact hstart
  · show Session.actualDuration _ = none
    unfold Session.actualDuration
    rw [show (completedSessionOf (run (newSession tutor student title sd dur t0)
        ops) tp sp now).actualStartTime =
      (run (newSession tutor student title sd dur t0) ops).actualStartTime
      from rfl, hstart]

/-- Witness for claim C10 at a concrete input: the fixture session that
    was confirmed and then completed without being started has no
    actualStartTime and a null actualDuration. -/
theorem complete_skipping_start_yields_no_duration_witness :
    sDone.actualStartTime = none ∧ sDone.actualEndTime = some 20 ∧
    sDone.actualDuration = none :=
  complete_skipping_start_yields_no_duration 1 2 "Algebra 2" 100 60 0
    [Op.confirm 1 10] 20 10 20 sDone (by decide) (by decide)

end SkillSwap
